import Mathlib

/-!
Verification of `random_cache.py`: a fixed-capacity, randomly-evicting
key/value cache with several implementation variants (`SimpleCache`,
`OptimizedCache`, `OptimizedCache2`..`OptimizedCache5`, `OptimizedCacheMB`).

Modelling conventions:
* Python `dict` (which preserves insertion order) is modelled as an
  association list `List (Nat × α)`: overwriting an existing key keeps its
  position, inserting a new key appends at the end, `del` removes the
  binding.  Keys and values in the benchmark are `int`s, so both are `Nat`.
* `random.randint(0, capacity - 1)` is modelled by passing the drawn index
  `r` as an explicit argument; theorems that depend on the draw hypothesise
  `r < capacity` (the contract of `randint`); `randint` on an empty range
  (capacity ≤ 0) raises `ValueError`, which is modelled explicitly.
* Python exceptions are modelled by returning the final state (including any
  mutations committed before the raise point) together with an
  `Option PyErr` / `Except PyErr`; `KeyError`, `IndexError`, `ValueError`
  and `RecursionError` are distinguished.
* The recursive call `self.put(key, value)` inside `_replace` is modelled
  with a fuel argument standing for Python's recursion limit (default 1000);
  exhausted fuel yields `RecursionError`, exactly as CPython would on an
  unbounded recursion.
-/

/-- The Python exceptions that the cache code can raise. -/
inductive PyErr where
  | keyError
  | indexError
  | valueError
  | recursionError
deriving DecidableEq

/-- Python's default recursion limit, bounding the depth of
`_replace` → `put` recursion. -/
def pyRecursionLimit : Nat := 1000

/-- The keys of a Python dict modelled as an association list, in insertion
order (`list(d.keys())`). -/
def dictKeys {α : Type} (l : List (Nat × α)) : List Nat :=
  l.map Prod.fst

/-- Python `d[k] = v`: overwrite in place if `k` is bound (keeping its
position in insertion order), otherwise append the new binding. -/
def dictSet {α : Type} (k : Nat) (v : α) (l : List (Nat × α)) : List (Nat × α) :=
  match l.lookup k with
  | some _ => l.map (fun p => if p.1 = k then (k, v) else p)
  | none => l ++ [(k, v)]

/-- Python `del d[k]` for a bound key: remove the (unique) binding of `k`. -/
def dictDel {α : Type} (k : Nat) (l : List (Nat × α)) : List (Nat × α) :=
  l.eraseP (fun p => p.1 == k)

/-- Python `set.add` on a set of slot indices (modelled as a duplicate-free
list in iteration order). -/
def setAdd (x : Nat) (l : List Nat) : List Nat :=
  if x ∈ l then l else l ++ [x]

/-! ### `SimpleCache` (random_cache.py lines 30-58)

State: `_capacity` (an arbitrary Python int, hence `Int`), `_data : dict`
mapping key → value, and `_replacement_counter`. -/

structure SimpleCache where
  capacity : Int
  data : List (Nat × Nat)
  counter : Nat
deriving DecidableEq

/-- `SimpleCache.__init__` (lines 31-34): plain assignments, no validation,
never raises. -/
def SimpleCache.init (capacity : Int) : SimpleCache :=
  { capacity := capacity, data := [], counter := 0 }

/-- `SimpleCache.put` with `_replace` (lines 50-55) inlined at its only call
site; `fuel` is the recursion budget for `self.put(key, value)` inside
`_replace`.  `r` is the value drawn by `random.randint(0, capacity - 1)`;
`list(self._data.keys())[r]` is the `r`-th key in insertion order. -/
def SimpleCache.putF : Nat → SimpleCache → Nat → Nat → Nat → SimpleCache × Option PyErr
  | 0, s, _, _, _ => (s, some PyErr.recursionError)
  | fuel + 1, s, key, value, r =>
    match s.data.lookup key with
    | some _ => ({ s with data := dictSet key value s.data }, none)
    | none =>
      if (s.data.length : Int) = s.capacity then
        -- _replace(key, value):
        if s.capacity ≤ 0 then (s, some PyErr.valueError)  -- randint on empty range
        else
          match s.data.get? r with
          | none => (s, some PyErr.indexError)  -- list(keys())[r] out of range
          | some rp =>
            -- del self._data[random_key]; then self.put(key, value)
            match SimpleCache.putF fuel { s with data := dictDel rp.1 s.data } key value r with
            | (s2, some e) => (s2, some e)
            | (s2, none) => ({ s2 with counter := s2.counter + 1 }, none)
      else ({ s with data := dictSet key value s.data }, none)

/-- `SimpleCache.put` (lines 36-42). -/
def SimpleCache.put (s : SimpleCache) (key value r : Nat) : SimpleCache × Option PyErr :=
  SimpleCache.putF pyRecursionLimit s key value r

/-- `SimpleCache.get` (lines 44-45): `return self._data[key]`; raises
`KeyError` when absent, mutates nothing. -/
def SimpleCache.get (s : SimpleCache) (key : Nat) : Except PyErr Nat :=
  match s.data.lookup key with
  | some v => Except.ok v
  | none => Except.error PyErr.keyError

/-- `SimpleCache.delete` (lines 47-48): `del self._data[key]`; raises
`KeyError` when absent, leaving the state untouched. -/
def SimpleCache.delete (s : SimpleCache) (key : Nat) : SimpleCache × Option PyErr :=
  match s.data.lookup key with
  | some _ => ({ s with data := dictDel key s.data }, none)
  | none => (s, some PyErr.keyError)

/-- Number of live entries of a `SimpleCache`: keys on which `get` succeeds. -/
def SimpleCache.liveCount (s : SimpleCache) : Nat :=
  (dictKeys s.data).dedup.length

/-! ### `OptimizedCache` (random_cache.py lines 61-101)

State: `_data : dict` key → `(value, idx)`, `_available_idxes : set` of free
slot indices (its unspecified iteration order is modelled as list order, with
`set.pop` taking the head), `_used_idxes : dict` idx → key. -/

structure OptimizedCache where
  capacity : Nat
  data : List (Nat × (Nat × Nat))
  available : List Nat
  used : List (Nat × Nat)
  counter : Nat
deriving DecidableEq

/-- `OptimizedCache.__init__` (lines 62-66): all slots free. -/
def OptimizedCache.init (capacity : Nat) : OptimizedCache :=
  { capacity := capacity, data := [], available := List.range capacity,
    used := [], counter := 0 }

/-- `OptimizedCache.put` (lines 68-77) with `_replace` (lines 88-94) inlined.
Line 70 `self._data[key] = (value, self._data[key][0])` is translated exactly
as written: the second component of the stored pair becomes the *old value*
(`[0]` of the old `(value, idx)` pair), not the slot index. -/
def OptimizedCache.putF : Nat → OptimizedCache → Nat → Nat → Nat → OptimizedCache × Option PyErr
  | 0, s, _, _, _ => (s, some PyErr.recursionError)
  | fuel + 1, s, key, value, r =>
    match s.data.lookup key with
    | some old => ({ s with data := dictSet key (value, old.1) s.data }, none)
    | none =>
      match s.available with
      | idx :: rest =>
        ({ s with data := dictSet key (value, idx) s.data,
                  available := rest,
                  used := dictSet idx key s.used }, none)
      | [] =>
        -- _replace(key, value):
        if s.capacity = 0 then (s, some PyErr.valueError)  -- randint on empty range
        else
          match s.used.lookup r with
          | none => (s, some PyErr.keyError)  -- self._used_idxes[r] absent
          | some rkey =>
            -- self._delete_idx(random_idx) (lines 96-98)
            let s1 := { s with available := setAdd r s.available,
                               used := dictDel r s.used }
            -- self._delete_key(random_key) (lines 100-101): del raises if absent
            match s1.data.lookup rkey with
            | none => (s1, some PyErr.keyError)
            | some _ =>
              let s2 := { s1 with data := dictDel rkey s1.data }
              match OptimizedCache.putF fuel s2 key value r with
              | (s3, some e) => (s3, some e)
              | (s3, none) => ({ s3 with counter := s3.counter + 1 }, none)

/-- `OptimizedCache.put` (lines 68-77). -/
def OptimizedCache.put (s : OptimizedCache) (key value r : Nat) : OptimizedCache × Option PyErr :=
  OptimizedCache.putF pyRecursionLimit s key value r

/-- `OptimizedCache.get` (lines 79-81): `value, _ = self._data[key]`. -/
def OptimizedCache.get (s : OptimizedCache) (key : Nat) : Except PyErr Nat :=
  match s.data.lookup key with
  | some p => Except.ok p.1
  | none => Except.error PyErr.keyError

/-- `OptimizedCache.delete` (lines 83-86): look up `(_, idx)`, then
`_delete_key(key)`, then `_delete_idx(idx)` (whose `del self._used_idxes[idx]`
raises `KeyError` if `idx` is not a used slot). -/
def OptimizedCache.delete (s : OptimizedCache) (key : Nat) : OptimizedCache × Option PyErr :=
  match s.data.lookup key with
  | none => (s, some PyErr.keyError)
  | some p =>
    let s1 := { s with data := dictDel key s.data }
    match s1.used.lookup p.2 with
    | none => (s1, some PyErr.keyError)
    | some _ =>
      ({ s1 with used := dictDel p.2 s1.used,
                 available := setAdd p.2 s1.available }, none)

/-! ### `OptimizedCache3` (random_cache.py lines 147-190)

State: `_data` is a fixed-length list of slots, each `(key, value)` or
`(None, None)` (modelled as `Option (Nat × Nat)`); `_available_idxes` is a
list popped from the end; `_used_idxes : dict` key → idx. -/

structure OptimizedCache3 where
  capacity : Nat
  data : List (Option (Nat × Nat))
  available : List Nat
  used : List (Nat × Nat)
  counter : Nat
deriving DecidableEq

/-- `OptimizedCache3.__init__` (lines 148-152). -/
def OptimizedCache3.init (capacity : Nat) : OptimizedCache3 :=
  { capacity := capacity, data := List.replicate capacity none,
    available := List.range capacity, used := [], counter := 0 }

/-- `OptimizedCache3.put` (lines 154-163) with `_replace` (lines 173-180)
inlined.  `_available_idxes.pop()` removes and returns the last element;
`self._data[idx] = ...` raises `IndexError` when `idx` is out of range (after
the pop has already happened).  In `_replace`, reading `(None, None)` from
the drawn slot makes `random_key` `None`, and `_delete_key(None)` then
raises `KeyError` (after `_delete_idx` has already mutated the state). -/
def OptimizedCache3.putF : Nat → OptimizedCache3 → Nat → Nat → Nat → OptimizedCache3 × Option PyErr
  | 0, s, _, _, _ => (s, some PyErr.recursionError)
  | fuel + 1, s, key, value, r =>
    match s.used.lookup key with
    | some idx =>
      if idx < s.data.length then
        ({ s with data := s.data.set idx (some (key, value)) }, none)
      else (s, some PyErr.indexError)
    | none =>
      match s.available.getLast? with
      | some idx =>
        if idx < s.data.length then
          ({ s with data := s.data.set idx (some (key, value)),
                    available := s.available.dropLast,
                    used := dictSet key idx s.used }, none)
        else ({ s with available := s.available.dropLast }, some PyErr.indexError)
      | none =>
        -- _replace(key, value):
        if s.capacity = 0 then (s, some PyErr.valueError)  -- randint on empty range
        else
          match s.data.get? r with
          | none => (s, some PyErr.indexError)  -- self._data[r] out of range
          | some slot =>
            -- self._delete_idx(random_idx) (lines 182-184)
            let s1 := { s with data := s.data.set r none,
                               available := s.available ++ [r] }
            match slot with
            | none => (s1, some PyErr.keyError)  -- del self._used_idxes[None]
            | some rkv =>
              -- self._delete_key(random_key) (lines 186-187)
              match s1.used.lookup rkv.1 with
              | none => (s1, some PyErr.keyError)
              | some _ =>
                let s2 := { s1 with used := dictDel rkv.1 s1.used }
                match OptimizedCache3.putF fuel s2 key value r with
                | (s3, some e) => (s3, some e)
                | (s3, none) => ({ s3 with counter := s3.counter + 1 }, none)

/-- `OptimizedCache3.put` (lines 154-163). -/
def OptimizedCache3.put (s : OptimizedCache3) (key value r : Nat) : OptimizedCache3 × Option PyErr :=
  OptimizedCache3.putF pyRecursionLimit s key value r

/-- `OptimizedCache3.get` (lines 165-166):
`return self._data[self._used_idxes[key]][1]`.  On a cleared slot
`(None, None)`, `[1]` yields Python `None`, so the value type is
`Option Nat`. -/
def OptimizedCache3.get (s : OptimizedCache3) (key : Nat) : Except PyErr (Option Nat) :=
  match s.used.lookup key with
  | none => Except.error PyErr.keyError
  | some idx =>
    match s.data.get? idx with
    | none => Except.error PyErr.indexError
    | some slot => Except.ok (slot.map Prod.snd)

/-- `OptimizedCache3.delete` (lines 168-171): look up `idx`, then
`_delete_key(key)`, then `_delete_idx(idx)`. -/
def OptimizedCache3.delete (s : OptimizedCache3) (key : Nat) : OptimizedCache3 × Option PyErr :=
  match s.used.lookup key with
  | none => (s, some PyErr.keyError)
  | some idx =>
    let s1 := { s with used := dictDel key s.used }
    if idx < s1.data.length then
      ({ s1 with data := s1.data.set idx none,
                 available := s1.available ++ [idx] }, none)
    else (s1, some PyErr.indexError)

/-- The eviction victim of `OptimizedCache3._replace` as a function of the
drawn slot index `r`: the key occupying slot `r`
(`random_key, _ = self._data[random_idx]`, line 176). -/
def OptimizedCache3.victim (s : OptimizedCache3) (r : Nat) : Option Nat :=
  match s.data.get? r with
  | some slot => slot.map Prod.fst
  | none => none

/-- Slot/index consistency of `OptimizedCache3` at slot `i`: if slot `i`
holds `(k, v)` then `_used_idxes` maps `k` back to `i`. -/
def OptimizedCache3.slotConsistentB (s : OptimizedCache3) (i : Nat) : Bool :=
  match s.data.get? i with
  | some (some kv) => s.used.lookup kv.1 == some i
  | _ => true

/-! ### `OptimizedCache4` (random_cache.py lines 193-242)

State: `_data : dict` idx → `(key, value)`; `_available_idxes` is a lazy
generator over `range(capacity)` chained with recycled indices, modelled by
the list of values it has yet to yield; `_used_idxes : dict` key → idx. -/

structure OptimizedCache4 where
  capacity : Nat
  data : List (Nat × (Nat × Nat))
  available : List Nat
  used : List (Nat × Nat)
  counter : Nat
deriving DecidableEq

/-- `OptimizedCache4.__init__` (lines 194-204): the generator will yield
`0, 1, ..., capacity - 1`. -/
def OptimizedCache4.init (capacity : Nat) : OptimizedCache4 :=
  { capacity := capacity, data := [], available := List.range capacity,
    used := [], counter := 0 }

/-- `OptimizedCache4.delete` (lines 220-223): look up `idx`, then
`_delete_key(key)`, then `_delete_idx(idx)` (lines 234-236: `del
self._data[idx]`, which raises `KeyError` if absent, then chains `idx` onto
the generator). -/
def OptimizedCache4.delete (s : OptimizedCache4) (key : Nat) : OptimizedCache4 × Option PyErr :=
  match s.used.lookup key with
  | none => (s, some PyErr.keyError)
  | some idx =>
    let s1 := { s with used := dictDel key s.used }
    match s1.data.lookup idx with
    | none => (s1, some PyErr.keyError)
    | some _ =>
      ({ s1 with data := dictDel idx s1.data,
                 available := s1.available ++ [idx] }, none)

/-! ### `OptimizedCacheMB` (random_cache.py lines 297-333)

State: `_data : dict` key → `(value, pos)`, `_data_list` a dense list of keys
kept hole-free by swap-with-last compaction on delete. -/

structure OptimizedCacheMB where
  capacity : Int
  data : List (Nat × (Nat × Nat))
  dataList : List Nat
  counter : Nat
deriving DecidableEq

/-- `OptimizedCacheMB.__init__` (lines 298-302): plain assignments, no
validation, never raises. -/
def OptimizedCacheMB.init (capacity : Int) : OptimizedCacheMB :=
  { capacity := capacity, data := [], dataList := [], counter := 0 }

/-- `OptimizedCacheMB.put` (lines 304-311) with `_replace` (lines 323-330)
inlined (no recursion in this variant). -/
def OptimizedCacheMB.put (s : OptimizedCacheMB) (key value r : Nat) : OptimizedCacheMB × Option PyErr :=
  match s.data.lookup key with
  | some old => ({ s with data := dictSet key (value, old.2) s.data }, none)
  | none =>
    if (s.data.length : Int) = s.capacity then
      -- _replace(key, value):
      if s.capacity ≤ 0 then (s, some PyErr.valueError)  -- randint on empty range
      else
        match s.dataList.get? r with
        | none => (s, some PyErr.indexError)  -- self._data_list[r] out of range
        | some rkey =>
          match s.data.lookup rkey with
          | none => (s, some PyErr.keyError)  -- self._data[random_key] absent
          | some rold =>
            ({ s with data := dictSet key (value, rold.2) (dictDel rkey s.data),
                      dataList := s.dataList.set r key,
                      counter := s.counter + 1 }, none)
    else
      ({ s with data := dictSet key (value, s.dataList.length) s.data,
                dataList := s.dataList ++ [key] }, none)

/-- `OptimizedCacheMB.get` (lines 313-314): `return self._data[key][0]`. -/
def OptimizedCacheMB.get (s : OptimizedCacheMB) (key : Nat) : Except PyErr Nat :=
  match s.data.lookup key with
  | some p => Except.ok p.1
  | none => Except.error PyErr.keyError

/-- `OptimizedCacheMB.delete` (lines 316-321), statement by statement:
`_, pos = self._data[key]` (KeyError when absent, before any mutation);
`del self._data[key]`;
`self._data_list[pos] = self._data_list[-1]` (IndexError on an empty list or
when `pos` is out of range, with the dict deletion already committed);
`self._data_list.pop()`;
`self._data[self._data_list[pos]] = self._data[self._data_list[pos]][0], pos`
(IndexError when `pos` now points past the shortened list — in particular
whenever the deleted key occupied the last position). -/
def OptimizedCacheMB.delete (s : OptimizedCacheMB) (key : Nat) : OptimizedCacheMB × Option PyErr :=
  match s.data.lookup key with
  | none => (s, some PyErr.keyError)
  | some p =>
    let data1 := dictDel key s.data
    match s.dataList.getLast? with
    | none => ({ s with data := data1 }, some PyErr.indexError)
    | some last =>
      if p.2 < s.dataList.length then
        let list2 := (s.dataList.set p.2 last).dropLast
        match list2.get? p.2 with
        | none => ({ s with data := data1, dataList := list2 }, some PyErr.indexError)
        | some moved =>
          match data1.lookup moved with
          | none => ({ s with data := data1, dataList := list2 }, some PyErr.keyError)
          | some mv =>
            ({ s with data := dictSet moved (mv.1, p.2) data1, dataList := list2 }, none)
      else ({ s with data := data1 }, some PyErr.indexError)

/-- A concrete full, consistent `OptimizedCache3` of capacity 2 holding keys
5 and 6, used by concrete instantiations below. -/
def oc3Full2 : OptimizedCache3 :=
  { capacity := 2, data := [some (5, 50), some (6, 60)], available := [],
    used := [(5, 0), (6, 1)], counter := 0 }

/-! ### Lemmas about the dict model -/

theorem lookup_cons_self {α : Type} (a : Nat) (b : α) (t : List (Nat × α)) :
    ((a, b) :: t).lookup a = some b := by
  simp [List.lookup]

theorem lookup_cons_ne {α : Type} (a k : Nat) (b : α) (t : List (Nat × α))
    (h : k ≠ a) : ((a, b) :: t).lookup k = t.lookup k := by
  have hb : (k == a) = false := beq_eq_false_iff_ne.mpr h
  simp [List.lookup, hb]

theorem lookup_eq_none_iff {α : Type} (l : List (Nat × α)) (k : Nat) :
    l.lookup k = none ↔ k ∉ dictKeys l := by
  induction l with
  | nil => simp [List.lookup, dictKeys]
  | cons p t ih =>
    obtain ⟨a, b⟩ := p
    by_cases h : k = a
    · subst h
      simp [lookup_cons_self, dictKeys]
    · rw [lookup_cons_ne a k b t h]
      simp [dictKeys, h, ih]

theorem lookup_append {α : Type} (l₁ l₂ : List (Nat × α)) (k : Nat) :
    (l₁ ++ l₂).lookup k = (l₁.lookup k).or (l₂.lookup k) := by
  induction l₁ with
  | nil => simp [List.lookup]
  | cons p t ih =>
    obtain ⟨a, b⟩ := p
    by_cases h : k = a
    · subst h
      simp [lookup_cons_self]
    · rw [List.cons_append, lookup_cons_ne a k b _ h, lookup_cons_ne a k b t h, ih]

theorem lookup_overwrite_self {α : Type} (l : List (Nat × α)) (k : Nat) (v : α) :
    ((l.map fun p => if p.1 = k then (k, v) else p).lookup k)
      = (l.lookup k).map (fun _ => v) := by
  induction l with
  | nil => simp [List.lookup]
  | cons p t ih =>
    obtain ⟨a, b⟩ := p
    by_cases h : a = k
    · subst h
      simp only [List.map_cons, ite_true, eq_self_iff_true, if_pos rfl]
      rw [lookup_cons_self, lookup_cons_self]
      rfl
    · have h2 : k ≠ a := fun hh => h hh.symm
      have hh : (fun p : Nat × α => if p.1 = k then (k, v) else p) (a, b) = (a, b) := by simp [h]
      simp only [List.map_cons, hh]
      rw [lookup_cons_ne a k b _ h2, lookup_cons_ne a k b t h2, ih]

theorem lookup_overwrite_ne {α : Type} (l : List (Nat × α)) (k : Nat) (v : α)
    (k' : Nat) (h : k' ≠ k) :
    ((l.map fun p => if p.1 = k then (k, v) else p).lookup k') = l.lookup k' := by
  induction l with
  | nil => simp [List.lookup]
  | cons p t ih =>
    obtain ⟨a, b⟩ := p
    by_cases ha : a = k
    · subst ha
      simp only [List.map_cons, ite_true, eq_self_iff_true, if_pos rfl]
      rw [lookup_cons_ne a k' v _ h, lookup_cons_ne a k' b t h, ih]
    · have hh : (fun p : Nat × α => if p.1 = k then (k, v) else p) (a, b) = (a, b) := by simp [ha]
      simp only [List.map_cons, hh]
      by_cases hk : k' = a
      · subst hk
        rw [lookup_cons_self, lookup_cons_self]
      · rw [lookup_cons_ne a k' b _ hk, lookup_cons_ne a k' b t hk, ih]

theorem lookup_dictSet_self {α : Type} (l : List (Nat × α)) (k : Nat) (v : α) :
    (dictSet k v l).lookup k = some v := by
  unfold dictSet
  cases h : l.lookup k with
  | none => simp [lookup_append, h, lookup_cons_self, List.lookup]
  | some w => simp [lookup_overwrite_self, h]

theorem lookup_dictSet_ne {α : Type} (l : List (Nat × α)) (k : Nat) (v : α)
    (k' : Nat) (h : k' ≠ k) :
    (dictSet k v l).lookup k' = l.lookup k' := by
  unfold dictSet
  cases hl : l.lookup k with
  | none =>
    rw [lookup_append, lookup_cons_ne k k' v [] h]
    simp [List.lookup]
  | some w => exact lookup_overwrite_ne l k v k' h

theorem dictDel_cons_self {α : Type} (a : Nat) (b : α) (t : List (Nat × α)) :
    dictDel a ((a, b) :: t) = t := by
  simp [dictDel, List.eraseP_cons]

theorem dictDel_cons_ne {α : Type} (a k : Nat) (b : α) (t : List (Nat × α))
    (h : a ≠ k) : dictDel k ((a, b) :: t) = (a, b) :: dictDel k t := by
  have hb : (a == k) = false := beq_eq_false_iff_ne.mpr h
  simp [dictDel, List.eraseP_cons, hb]

theorem dictDel_of_lookup_none {α : Type} (l : List (Nat × α)) (k : Nat)
    (h : l.lookup k = none) : dictDel k l = l := by
  induction l with
  | nil => rfl
  | cons p t ih =>
    obtain ⟨a, b⟩ := p
    by_cases hk : k = a
    · subst hk
      rw [lookup_cons_self] at h
      exact absurd h (by simp)
    · rw [lookup_cons_ne a k b t hk] at h
      rw [dictDel_cons_ne a k b t (fun hh => hk hh.symm), ih h]

theorem lookup_dictDel_ne {α : Type} (l : List (Nat × α)) (k k' : Nat) (h : k' ≠ k) :
    (dictDel k l).lookup k' = l.lookup k' := by
  induction l with
  | nil => rfl
  | cons p t ih =>
    obtain ⟨a, b⟩ := p
    by_cases ha : a = k
    · subst ha
      rw [dictDel_cons_self, lookup_cons_ne a k' b t (fun hh => h hh)]
    · rw [dictDel_cons_ne a k b t ha]
      by_cases hk : k' = a
      · subst hk
        rw [lookup_cons_self, lookup_cons_self]
      · rw [lookup_cons_ne a k' b _ hk, lookup_cons_ne a k' b t hk, ih]

theorem lookup_dictDel_self {α : Type} (l : List (Nat × α)) (k : Nat)
    (hnd : (dictKeys l).Nodup) : (dictDel k l).lookup k = none := by
  induction l with
  | nil => rfl
  | cons p t ih =>
    obtain ⟨a, b⟩ := p
    simp only [dictKeys, List.map_cons, List.nodup_cons] at hnd
    by_cases ha : a = k
    · subst ha
      rw [dictDel_cons_self, lookup_eq_none_iff]
      exact hnd.1
    · rw [dictDel_cons_ne a k b t ha,
        lookup_cons_ne a k b _ (fun hh => ha hh.symm)]
      exact ih hnd.2

theorem lookup_dictDel_none {α : Type} (l : List (Nat × α)) (rk k : Nat)
    (h : l.lookup k = none) : (dictDel rk l).lookup k = none := by
  by_cases hk : k = rk
  · subst hk
    rw [lookup_eq_none_iff] at h ⊢
    intro hc
    exact h (List.Sublist.mem hc (List.Sublist.map _ (List.eraseP_sublist l)))
  · rw [lookup_dictDel_ne l rk k hk]
    exact h

theorem length_dictDel {α : Type} (l : List (Nat × α)) (k : Nat)
    (h : k ∈ dictKeys l) : (dictDel k l).length + 1 = l.length := by
  obtain ⟨p, hp, hpk⟩ := List.mem_map.mp h
  have hlen := List.length_eraseP_of_mem hp (p := fun q => q.1 == k) (by simp [hpk])
  have hpos : 0 < l.length := List.length_pos.mpr (fun hn => by subst hn; simp at hp)
  unfold dictDel
  omega

theorem length_dictDel_le {α : Type} (l : List (Nat × α)) (k : Nat) :
    (dictDel k l).length ≤ l.length :=
  List.Sublist.length_le (List.eraseP_sublist l)

theorem dictKeys_dictDel_sublist {α : Type} (l : List (Nat × α)) (k : Nat) :
    (dictKeys (dictDel k l)).Sublist (dictKeys l) :=
  List.Sublist.map _ (List.eraseP_sublist l)

theorem nodup_dictDel {α : Type} (l : List (Nat × α)) (k : Nat)
    (h : (dictKeys l).Nodup) : (dictKeys (dictDel k l)).Nodup :=
  List.Nodup.sublist (dictKeys_dictDel_sublist l k) h

theorem dictKeys_dictSet_none {α : Type} (l : List (Nat × α)) (k : Nat) (v : α)
    (h : l.lookup k = none) : dictKeys (dictSet k v l) = dictKeys l ++ [k] := by
  unfold dictSet
  rw [h]
  simp [dictKeys]

theorem dictKeys_dictSet_some {α : Type} (l : List (Nat × α)) (k : Nat) (v w : α)
    (h : l.lookup k = some w) : dictKeys (dictSet k v l) = dictKeys l := by
  unfold dictSet
  rw [h]
  simp only [dictKeys, List.map_map]
  apply List.map_congr_left
  intro p _
  by_cases hp : p.1 = k <;> simp [hp, Function.comp]

theorem nodup_dictSet {α : Type} (l : List (Nat × α)) (k : Nat) (v : α)
    (h : (dictKeys l).Nodup) : (dictKeys (dictSet k v l)).Nodup := by
  cases hl : l.lookup k with
  | none =>
    rw [dictKeys_dictSet_none l k v hl, List.nodup_append]
    refine ⟨h, List.nodup_singleton k, ?_⟩
    intro a ha hb
    simp only [List.mem_singleton] at hb
    subst hb
    exact (lookup_eq_none_iff l a).mp hl ha
  | some w =>
    rw [dictKeys_dictSet_some l k v w hl]
    exact h

theorem length_dictSet_none {α : Type} (l : List (Nat × α)) (k : Nat) (v : α)
    (h : l.lookup k = none) : (dictSet k v l).length = l.length + 1 := by
  unfold dictSet
  rw [h]
  simp

theorem length_dictSet_some {α : Type} (l : List (Nat × α)) (k : Nat) (v w : α)
    (h : l.lookup k = some w) : (dictSet k v l).length = l.length := by
  unfold dictSet
  rw [h]
  simp

/-! ### Branch lemmas for `SimpleCache.put` -/

theorem SimpleCache.putF_overwrite (fuel : Nat) (s : SimpleCache) (k v r : Nat)
    (w : Nat) (hk : s.data.lookup k = some w) :
    SimpleCache.putF (fuel + 1) s k v r = ({ s with data := dictSet k v s.data }, none) := by
  simp [SimpleCache.putF, hk]

theorem SimpleCache.putF_insert (fuel : Nat) (s : SimpleCache) (k v r : Nat)
    (hk : s.data.lookup k = none) (hnf : (s.data.length : Int) ≠ s.capacity) :
    SimpleCache.putF (fuel + 1) s k v r = ({ s with data := dictSet k v s.data }, none) := by
  simp [SimpleCache.putF, hk, hnf]

theorem SimpleCache.putF_evict (fuel : Nat) (s : SimpleCache) (k v r : Nat) (p : Nat × Nat)
    (hk : s.data.lookup k = none)
    (hfull : (s.data.length : Int) = s.capacity)
    (hp : s.data.get? r = some p) :
    SimpleCache.putF (fuel + 2) s k v r =
      ({ capacity := s.capacity, data := dictSet k v (dictDel p.1 s.data),
         counter := s.counter + 1 }, none) := by
  have hrlt : r < s.data.length := (List.get?_eq_some.mp hp).1
  have hpos : 0 < s.data.length := Nat.lt_of_le_of_lt (Nat.zero_le r) hrlt
  have hcap : ¬ s.capacity ≤ 0 := by omega
  have hmemk : p.1 ∈ dictKeys s.data := List.mem_map_of_mem _ (List.get?_mem hp)
  have hlen1 : (dictDel p.1 s.data).length + 1 = s.data.length := length_dictDel _ _ hmemk
  have hk1 : (dictDel p.1 s.data).lookup k = none := lookup_dictDel_none _ _ _ hk
  have hnf1 : (((dictDel p.1 s.data).length : Int)) ≠ s.capacity := by omega
  show SimpleCache.putF (fuel + 1 + 1) s k v r = _
  simp only [SimpleCache.putF, hk, hfull, hcap, hp, hk1, hnf1, eq_self_iff_true,
    ite_true, ite_false, if_true, if_false]

theorem SimpleCache.putF_bound (fuel : Nat) (s : SimpleCache) (k v r : Nat)
    (hle : (s.data.length : Int) ≤ s.capacity) :
    (SimpleCache.putF fuel s k v r).1.capacity = s.capacity ∧
    ((SimpleCache.putF fuel s k v r).1.data.length : Int) ≤ s.capacity := by
  induction fuel generalizing s with
  | zero => exact ⟨rfl, hle⟩
  | succ n ih =>
    cases hk : s.data.lookup k with
    | some w =>
      rw [SimpleCache.putF_overwrite n s k v r w hk]
      simpa [length_dictSet_some s.data k v w hk] using hle
    | none =>
      by_cases hfull : (s.data.length : Int) = s.capacity
      · by_cases hcap : s.capacity ≤ 0
        · simp only [SimpleCache.putF, hk, hfull, hcap, eq_self_iff_true,
            ite_true, ite_false, if_true, if_false]
          exact ⟨trivial, le_refl _⟩
        · cases hp : s.data.get? r with
          | none =>
            simp only [SimpleCache.putF, hk, hfull, hcap, hp, eq_self_iff_true,
              ite_true, ite_false, if_true, if_false]
            exact ⟨trivial, le_refl _⟩
          | some rp =>
            simp only [SimpleCache.putF, hk, hfull, hcap, hp, eq_self_iff_true,
              ite_true, ite_false, if_true, if_false]
            have hle1 : (((dictDel rp.1 s.data).length : Int))
                ≤ ({ s with data := dictDel rp.1 s.data } : SimpleCache).capacity := by
              have := length_dictDel_le s.data rp.1
              simp only
              omega
            have hih := ih { s with data := dictDel rp.1 s.data } hle1
            cases hrec : SimpleCache.putF n { s with data := dictDel rp.1 s.data } k v r with
            | mk s2 e =>
              rw [hrec] at hih
              cases e <;> simpa using hih
      · rw [SimpleCache.putF_insert n s k v r hk hfull]
        have hlt : (s.data.length : Int) < s.capacity := lt_of_le_of_ne hle hfull
        have hlen := length_dictSet_none s.data k v hk
        refine ⟨rfl, ?_⟩
        simp only [hlen]
        push_cast
        omega

theorem SimpleCache.foldPut_bound (ops : List (Nat × Nat × Nat)) (s : SimpleCache)
    (hle : (s.data.length : Int) ≤ s.capacity) :
    ((ops.foldl (fun s t => (s.put t.1 t.2.1 t.2.2).1) s).data.length : Int)
        ≤ s.capacity ∧
    (ops.foldl (fun s t => (s.put t.1 t.2.1 t.2.2).1) s).capacity = s.capacity := by
  induction ops generalizing s with
  | nil => exact ⟨hle, rfl⟩
  | cons t ts ih =>
    have hb := SimpleCache.putF_bound pyRecursionLimit s t.1 t.2.1 t.2.2 hle
    rw [show SimpleCache.putF pyRecursionLimit s t.1 t.2.1 t.2.2
        = s.put t.1 t.2.1 t.2.2 from rfl] at hb
    have hle2 : (((s.put t.1 t.2.1 t.2.2).1.data.length : Int))
        ≤ (s.put t.1 t.2.1 t.2.2).1.capacity := by
      rw [hb.1]
      exact hb.2
    have hih := ih ((s.put t.1 t.2.1 t.2.2).1) hle2
    simp only [List.foldl_cons]
    refine ⟨?_, ?_⟩
    · have hcap : (s.put t.1 t.2.1 t.2.2).1.capacity = s.capacity := hb.1
      rw [← hcap]
      exact hih.1
    · rw [hih.2, hb.1]

theorem SimpleCache.liveCount_le (s : SimpleCache) : s.liveCount ≤ s.data.length := by
  unfold SimpleCache.liveCount
  have h1 : (dictKeys s.data).dedup.length ≤ (dictKeys s.data).length :=
    List.Sublist.length_le (List.dedup_sublist _)
  have h2 : (dictKeys s.data).length = s.data.length := by simp [dictKeys]
  omega

/-- C4: starting from a freshly constructed `SimpleCache` of capacity `C > 0`,
under any sequence of `put` calls with pairwise-distinct keys (and draws in
the `randint(0, C-1)` range), the number of live entries (keys on which `get`
succeeds) never exceeds `C` at any point of the sequence. -/
theorem c4_capacity_bound (C : Int) (hC : 0 < C) (ops : List (Nat × Nat × Nat))
    (hkeys : (ops.map (fun t => t.1)).Nodup)
    (hdraws : ∀ t ∈ ops, ((t.2.2 : Int) < C)) :
    ∀ n : Nat,
      (((ops.take n).foldl (fun s t => (s.put t.1 t.2.1 t.2.2).1)
          (SimpleCache.init C)).liveCount : Int) ≤ C := by
  intro n
  have h0 : ((SimpleCache.init C).data.length : Int) ≤ (SimpleCache.init C).capacity := by
    simp [SimpleCache.init]
    omega
  have hb := SimpleCache.foldPut_bound (ops.take n) (SimpleCache.init C) h0
  have hl := SimpleCache.liveCount_le
    ((ops.take n).foldl (fun s t => (s.put t.1 t.2.1 t.2.2).1) (SimpleCache.init C))
  have hcap : (SimpleCache.init C).capacity = C := rfl
  rw [hcap] at hb
  omega

/-- Witness for C4 at a concrete sequence of three distinct keys on
capacity 2. -/
theorem c4_capacity_bound_witness :
    (0 : Int) < 2 ∧
    ∀ n : Nat,
      (((([(1, 10, 0), (2, 20, 0), (3, 30, 1)] : List (Nat × Nat × Nat)).take n).foldl
          (fun s t => (s.put t.1 t.2.1 t.2.2).1) (SimpleCache.init 2)).liveCount : Int) ≤ 2 :=
  ⟨by norm_num, c4_capacity_bound 2 (by norm_num) _ (by decide) (by decide)⟩

/-- C6: `put` increments `_replacement_counter` by exactly one when it evicts
(a new key inserted into a full store) and by exactly zero otherwise
(overwrite of an existing key, or insertion into a non-full store); the
recursive `put` inside `_replace` causes no double increment.  The hypothesis
is the `randint(0, capacity - 1)` contract for the full case. -/
theorem c6_replacement_counter (s : SimpleCache) (k v r : Nat)
    (hr : (s.data.length : Int) = s.capacity → r < s.data.length) :
    (s.put k v r).1.counter
      = s.counter
        + (if s.data.lookup k = none ∧ (s.data.length : Int) = s.capacity
           then 1 else 0) := by
  cases hk : s.data.lookup k with
  | some w =>
    rw [SimpleCache.put, show pyRecursionLimit = 999 + 1 from rfl,
      SimpleCache.putF_overwrite 999 s k v r w hk]
    simp [hk]
  | none =>
    by_cases hfull : (s.data.length : Int) = s.capacity
    · obtain ⟨p, hp⟩ : ∃ p, s.data.get? r = some p := by
        have hrl := hr hfull
        cases hg : s.data.get? r with
        | none =>
          rw [List.get?_eq_none] at hg
          omega
        | some q => exact ⟨q, rfl⟩
      rw [SimpleCache.put, show pyRecursionLimit = 998 + 2 from rfl,
        SimpleCache.putF_evict 998 s k v r p hk hfull hp]
      simp [hk, hfull]
    · rw [SimpleCache.put, show pyRecursionLimit = 999 + 1 from rfl,
        SimpleCache.putF_insert 999 s k v r hk hfull]
      simp [hk, hfull]

/-- Witness for C6: an eviction on a full cache of capacity 2 increments the
counter from 0 to 1 exactly once, despite the recursive `put`. -/
theorem c6_replacement_counter_witness :
    (({ capacity := 2, data := [(5, 50), (6, 60)], counter := 0 } : SimpleCache).put 7 70 0).1.counter
      = ({ capacity := 2, data := [(5, 50), (6, 60)], counter := 0 } : SimpleCache).counter
        + (if ({ capacity := 2, data := [(5, 50), (6, 60)], counter := 0 } : SimpleCache).data.lookup 7 = none
              ∧ ((({ capacity := 2, data := [(5, 50), (6, 60)], counter := 0 } : SimpleCache).data.length : Int)
                  = ({ capacity := 2, data := [(5, 50), (6, 60)], counter := 0 } : SimpleCache).capacity)
           then 1 else 0) :=
  c6_replacement_counter { capacity := 2, data := [(5, 50), (6, 60)], counter := 0 } 7 70 0 (by decide)

/-- C7: when `put` of a new key hits a full `SimpleCache` and evicts with
draw `r`, the victim (the `r`-th key in insertion order) becomes unfound, the
new key becomes live with its value, every other key is untouched, and the
live-entry count still equals `capacity` afterwards. -/
theorem c7_eviction_conserves_occupancy (s : SimpleCache) (k v r : Nat) (p : Nat × Nat)
    (hnd : (dictKeys s.data).Nodup)
    (hk : s.data.lookup k = none)
    (hfull : (s.data.length : Int) = s.capacity)
    (hp : s.data.get? r = some p) :
    ((s.put k v r).1.data.lookup k = some v) ∧
    ((s.put k v r).1.data.lookup p.1 = none) ∧
    (∀ k', k' ≠ p.1 → k' ≠ k → (s.put k v r).1.data.lookup k' = s.data.lookup k') ∧
    (((s.put k v r).1.liveCount : Int) = s.capacity) := by
  rw [SimpleCache.put, show pyRecursionLimit = 998 + 2 from rfl,
    SimpleCache.putF_evict 998 s k v r p hk hfull hp]
  have hmem : p.1 ∈ dictKeys s.data := List.mem_map_of_mem _ (List.get?_mem hp)
  have hkne : k ≠ p.1 := by
    intro he
    rw [lookup_eq_none_iff] at hk
    rw [he] at hk
    exact hk hmem
  have hdk : (dictDel p.1 s.data).lookup k = none := lookup_dictDel_none _ _ _ hk
  refine ⟨lookup_dictSet_self _ _ _, ?_, ?_, ?_⟩
  · rw [lookup_dictSet_ne _ k v p.1 (fun hh => hkne hh.symm)]
    exact lookup_dictDel_self _ _ hnd
  · intro k' h1 h2
    rw [lookup_dictSet_ne _ k v k' h2, lookup_dictDel_ne _ _ _ h1]
  · have hnd1 : (dictKeys (dictDel p.1 s.data)).Nodup := nodup_dictDel _ _ hnd
    have hnd2 : (dictKeys (dictSet k v (dictDel p.1 s.data))).Nodup :=
      nodup_dictSet _ _ _ hnd1
    have hdedup := List.dedup_eq_self.mpr hnd2
    have hlen : (dictSet k v (dictDel p.1 s.data)).length = s.data.length := by
      rw [length_dictSet_none _ _ _ hdk]
      have := length_dictDel s.data p.1 hmem
      omega
    simp only [SimpleCache.liveCount, hdedup]
    have hkl : (dictKeys (dictSet k v (dictDel p.1 s.data))).length
        = (dictSet k v (dictDel p.1 s.data)).length := by
      simp [dictKeys]
    rw [hkl, hlen, hfull]

/-- Witness for C7: capacity 2, full store `{5, 6}`, draw 0 evicts key 5. -/
theorem c7_eviction_conserves_occupancy_witness :
    ((({ capacity := 2, data := [(5, 50), (6, 60)], counter := 0 } : SimpleCache).put 7 70 0).1.data.lookup 7 = some 70) ∧
    ((({ capacity := 2, data := [(5, 50), (6, 60)], counter := 0 } : SimpleCache).put 7 70 0).1.data.lookup (5, 50).1 = none) ∧
    (∀ k', k' ≠ (5, 50).1 → k' ≠ 7 →
      ((({ capacity := 2, data := [(5, 50), (6, 60)], counter := 0 } : SimpleCache).put 7 70 0).1.data.lookup k'
        = ({ capacity := 2, data := [(5, 50), (6, 60)], counter := 0 } : SimpleCache).data.lookup k')) ∧
    (((({ capacity := 2, data := [(5, 50), (6, 60)], counter := 0 } : SimpleCache).put 7 70 0).1.liveCount : Int)
      = ({ capacity := 2, data := [(5, 50), (6, 60)], counter := 0 } : SimpleCache).capacity) :=
  c7_eviction_conserves_occupancy { capacity := 2, data := [(5, 50), (6, 60)], counter := 0 }
    7 70 0 (5, 50) (by decide) (by decide) (by decide) (by decide)

/-- C3 counterexample: constructing with capacity 0 (or negative) does *not*
fail — `SimpleCache.__init__` and `OptimizedCacheMB.__init__` are plain
assignments, so a cache handle with non-positive capacity is created. -/
theorem c3_counterexample_capacity_zero_handle :
    SimpleCache.init 0 = { capacity := 0, data := [], counter := 0 } ∧
    OptimizedCacheMB.init 0 = { capacity := 0, data := [], dataList := [], counter := 0 } ∧
    SimpleCache.init (-3) = { capacity := -3, data := [], counter := 0 } :=
  ⟨rfl, rfl, rfl⟩

/-- C3 amended: construction performs no capacity validation at all — for
every capacity, including 0 and negative values, the constructor succeeds and
returns a handle with that capacity and empty contents; no `InvalidCapacity`
error exists in the code. -/
theorem c3_construction_performs_no_validation (c : Int) :
    SimpleCache.init c = { capacity := c, data := [], counter := 0 } ∧
    OptimizedCacheMB.init c = { capacity := c, data := [], dataList := [], counter := 0 } :=
  ⟨rfl, rfl⟩

/-- C9: `get`/`delete` on a key never inserted or already deleted fail with
`KeyError` (Python's KeyNotFound), and `get` on a bound key returns the value
at its bound slot without mutating anything — stated for `SimpleCache` and
for the slot-indexed `OptimizedCache3`. -/
theorem c9_get_delete_semantics
    (s : SimpleCache) (t : OptimizedCache3)
    (ka kb ja jb jdx v w : Nat)
    (hnd : (dictKeys s.data).Nodup)
    (ha : s.data.lookup ka = none)
    (hb : s.data.lookup kb = some v)
    (hja : t.used.lookup ja = none)
    (hjb : t.used.lookup jb = some jdx)
    (hjslot : t.data.get? jdx = some (some (jb, w))) :
    s.get ka = Except.error PyErr.keyError ∧
    s.delete ka = (s, some PyErr.keyError) ∧
    s.get kb = Except.ok v ∧
    (s.delete kb).2 = none ∧
    (s.delete kb).1.get kb = Except.error PyErr.keyError ∧
    ((s.delete kb).1.delete kb) = ((s.delete kb).1, some PyErr.keyError) ∧
    t.get ja = Except.error PyErr.keyError ∧
    t.delete ja = (t, some PyErr.keyError) ∧
    t.get jb = Except.ok (some w) := by
  have hdel : s.delete kb = ({ s with data := dictDel kb s.data }, none) := by
    simp [SimpleCache.delete, hb]
  have hdk : (dictDel kb s.data).lookup kb = none := lookup_dictDel_self _ _ hnd
  refine ⟨?_, ?_, ?_, ?_, ?_, ?_, ?_, ?_, ?_⟩
  · simp [SimpleCache.get, ha]
  · simp [SimpleCache.delete, ha]
  · simp [SimpleCache.get, hb]
  · rw [hdel]
  · rw [hdel]
    simp only [SimpleCache.get, hdk]
  · rw [hdel]
    simp only [SimpleCache.delete, hdk]
  · simp [OptimizedCache3.get, hja]
  · simp [OptimizedCache3.delete, hja]
  · simp only [OptimizedCache3.get, hjb, hjslot]
    rfl

/-- Witness for C9 on concrete two-entry caches. -/
theorem c9_get_delete_semantics_witness :
    ({ capacity := 2, data := [(5, 50), (6, 60)], counter := 0 } : SimpleCache).get 9 = Except.error PyErr.keyError ∧
    ({ capacity := 2, data := [(5, 50), (6, 60)], counter := 0 } : SimpleCache).delete 9
      = ({ capacity := 2, data := [(5, 50), (6, 60)], counter := 0 }, some PyErr.keyError) ∧
    ({ capacity := 2, data := [(5, 50), (6, 60)], counter := 0 } : SimpleCache).get 5 = Except.ok 50 ∧
    (({ capacity := 2, data := [(5, 50), (6, 60)], counter := 0 } : SimpleCache).delete 5).2 = none ∧
    (({ capacity := 2, data := [(5, 50), (6, 60)], counter := 0 } : SimpleCache).delete 5).1.get 5
      = Except.error PyErr.keyError ∧
    ((({ capacity := 2, data := [(5, 50), (6, 60)], counter := 0 } : SimpleCache).delete 5).1.delete 5)
      = ((({ capacity := 2, data := [(5, 50), (6, 60)], counter := 0 } : SimpleCache).delete 5).1, some PyErr.keyError) ∧
    ({ capacity := 2, data := [some (5, 50), some (6, 60)], available := [],
       used := [(5, 0), (6, 1)], counter := 0 } : OptimizedCache3).get 9 = Except.error PyErr.keyError ∧
    ({ capacity := 2, data := [some (5, 50), some (6, 60)], available := [],
       used := [(5, 0), (6, 1)], counter := 0 } : OptimizedCache3).delete 9
      = ({ capacity := 2, data := [some (5, 50), some (6, 60)], available := [],
           used := [(5, 0), (6, 1)], counter := 0 }, some PyErr.keyError) ∧
    ({ capacity := 2, data := [some (5, 50), some (6, 60)], available := [],
       used := [(5, 0), (6, 1)], counter := 0 } : OptimizedCache3).get 6 = Except.ok (some 60) :=
  c9_get_delete_semantics
    { capacity := 2, data := [(5, 50), (6, 60)], counter := 0 }
    { capacity := 2, data := [some (5, 50), some (6, 60)], available := [],
      used := [(5, 0), (6, 1)], counter := 0 }
    9 5 9 6 1 50 60 (by decide) (by decide) (by decide) (by decide) (by decide) (by decide)

/-- C10: in every variant a failing `get`/`delete` performs the key lookup
before any mutation, so an unbound key leaves the whole state unchanged and
raises `KeyError` — stated for the three `delete` implementations
(`OptimizedCache`, `OptimizedCacheMB`, `OptimizedCache4`) plus the pure
`get`s. -/
theorem c10_failing_lookup_preserves_state
    (a : OptimizedCache) (b : OptimizedCacheMB) (c : OptimizedCache4) (k1 k2 k3 : Nat)
    (h1 : a.data.lookup k1 = none)
    (h2 : b.data.lookup k2 = none)
    (h3 : c.used.lookup k3 = none) :
    a.delete k1 = (a, some PyErr.keyError) ∧
    a.get k1 = Except.error PyErr.keyError ∧
    b.delete k2 = (b, some PyErr.keyError) ∧
    b.get k2 = Except.error PyErr.keyError ∧
    c.delete k3 = (c, some PyErr.keyError) := by
  refine ⟨?_, ?_, ?_, ?_, ?_⟩
  · simp [OptimizedCache.delete, h1]
  · simp [OptimizedCache.get, h1]
  · simp [OptimizedCacheMB.delete, h2]
  · simp [OptimizedCacheMB.get, h2]
  · simp [OptimizedCache4.delete, h3]

/-- Witness for C10 on concrete non-empty states and absent key 9. -/
theorem c10_failing_lookup_preserves_state_witness :
    ({ capacity := 2, data := [(5, (50, 0))], available := [1],
       used := [(0, 5)], counter := 0 } : OptimizedCache).delete 9
      = ({ capacity := 2, data := [(5, (50, 0))], available := [1],
           used := [(0, 5)], counter := 0 }, some PyErr.keyError) ∧
    ({ capacity := 2, data := [(5, (50, 0))], available := [1],
       used := [(0, 5)], counter := 0 } : OptimizedCache).get 9 = Except.error PyErr.keyError ∧
    ({ capacity := 2, data := [(5, (50, 0))], dataList := [5],
       counter := 0 } : OptimizedCacheMB).delete 9
      = ({ capacity := 2, data := [(5, (50, 0))], dataList := [5],
           counter := 0 }, some PyErr.keyError) ∧
    ({ capacity := 2, data := [(5, (50, 0))], dataList := [5],
       counter := 0 } : OptimizedCacheMB).get 9 = Except.error PyErr.keyError ∧
    ({ capacity := 2, data := [(0, (5, 50))], available := [1],
       used := [(5, 0)], counter := 0 } : OptimizedCache4).delete 9
      = ({ capacity := 2, data := [(0, (5, 50))], available := [1],
           used := [(5, 0)], counter := 0 }, some PyErr.keyError) :=
  c10_failing_lookup_preserves_state
    { capacity := 2, data := [(5, (50, 0))], available := [1], used := [(0, 5)], counter := 0 }
    { capacity := 2, data := [(5, (50, 0))], dataList := [5], counter := 0 }
    { capacity := 2, data := [(0, (5, 50))], available := [1], used := [(5, 0)], counter := 0 }
    9 9 9 (by decide) (by decide) (by decide)

/-- C1 (code bug): on `OptimizedCache`, overwriting a bound key does *not*
keep it bound to the same slot — line 70 stores `(value, old value)` instead
of `(value, idx)`.  With capacity 1, key 1 is first bound to slot 0; after
the overwrite `put(1, 20)` the stored pair is `(20, 10)`: the slot field now
holds the old value 10.  `get` still returns the new value and the
replacement counter and occupancy are unchanged, but the slot binding is
destroyed. -/
theorem c1_overwrite_drops_slot_binding :
    (((OptimizedCache.init 1).put 1 10 0).1.data.lookup 1 = some (10, 0)) ∧
    ((((OptimizedCache.init 1).put 1 10 0).1.put 1 20 0).1.data.lookup 1 = some (20, 10)) ∧
    ((((OptimizedCache.init 1).put 1 10 0).1.put 1 20 0).1.get 1 = Except.ok 20) ∧
    ((((OptimizedCache.init 1).put 1 10 0).1.put 1 20 0).1.counter = 0) ∧
    ((((OptimizedCache.init 1).put 1 10 0).1.put 1 20 0).1.data.length = 1) := by
  refine ⟨by decide, by decide, ?_, by decide, by decide⟩
  rfl

/-- C2 (code bug): on `OptimizedCacheMB`, deleting a *bound* key raises
`IndexError` whenever the key occupies the last position of `_data_list`:
line 321 indexes `self._data_list[pos]` after the list has been shortened by
`pop()`.  Here key 1 is bound (lookup succeeds) yet `delete(1)` fails. -/
theorem c2_delete_bound_key_raises_index_error :
    ((((OptimizedCacheMB.init 2).put 1 10 0).1.data.lookup 1 = some (10, 0)) ∧
     ((((OptimizedCacheMB.init 2).put 1 10 0).1.delete 1).2 = some PyErr.indexError)) := by
  decide

/-- C5 (code bug): the key→slot consistency invariant is violated on
`OptimizedCache` after an overwrite, because of the same line-70 slip as C1:
after `put(5, 50); put(5, 60)` on capacity 2, key 5 maps to "slot" 50, which
is outside `[0, capacity)` and is not an occupied slot (`_used_idxes` has no
entry 50, and still maps slot 0 to key 5). -/
theorem c5_key_maps_to_unoccupied_slot :
    ((((OptimizedCache.init 2).put 5 50 0).1.put 5 60 0).1.data.lookup 5 = some (60, 50)) ∧
    ((((OptimizedCache.init 2).put 5 50 0).1.put 5 60 0).1.used.lookup 50 = none) ∧
    ((((OptimizedCache.init 2).put 5 50 0).1.put 5 60 0).1.used.lookup 0 = some 5) ∧
    ((((OptimizedCache.init 2).put 5 50 0).1.put 5 60 0).1.capacity = 2) ∧
    ¬ (50 < (((OptimizedCache.init 2).put 5 50 0).1.put 5 60 0).1.capacity) := by
  decide

/-! ### Branch lemmas for `OptimizedCache3.put` -/

theorem OptimizedCache3.putF_simple_insert (fuel : Nat) (s : OptimizedCache3)
    (k v r idx : Nat)
    (hk : s.used.lookup k = none)
    (hlast : s.available.getLast? = some idx)
    (hidx : idx < s.data.length) :
    OptimizedCache3.putF (fuel + 1) s k v r =
      ({ s with data := s.data.set idx (some (k, v)),
                available := s.available.dropLast,
                used := dictSet k idx s.used }, none) := by
  simp only [OptimizedCache3.putF, hk, hlast, hidx, ite_true, if_true]

theorem OptimizedCache3.putF_evict_full (fuel : Nat) (cap : Nat)
    (data : List (Option (Nat × Nat))) (used : List (Nat × Nat)) (cnt : Nat)
    (k v r rk rv : Nat)
    (hC : cap ≠ 0)
    (hslot : data.get? r = some (some (rk, rv)))
    (hrkmem : (used.lookup rk).isSome = true)
    (hk : used.lookup k = none) :
    OptimizedCache3.putF (fuel + 2) ⟨cap, data, [], used, cnt⟩ k v r =
      (⟨cap, (data.set r none).set r (some (k, v)), [],
        dictSet k r (dictDel rk used), cnt + 1⟩, none) := by
  have hr : r < data.length := (List.get?_eq_some.mp hslot).1
  obtain ⟨w, hw⟩ := Option.isSome_iff_exists.mp hrkmem
  have hki : (dictDel rk used).lookup k = none := lookup_dictDel_none _ _ _ hk
  show OptimizedCache3.putF (fuel + 1 + 1) ⟨cap, data, [], used, cnt⟩ k v r = _
  simp only [OptimizedCache3.putF, hk, hC, hslot, hw, List.getLast?_nil,
    List.nil_append, eq_self_iff_true, ite_true, ite_false, if_true, if_false]
  simp only [hki, List.length_set, hr, ite_true, if_true]
  simp [hr]

theorem OptimizedCache3.put_evict (s : OptimizedCache3) (k v r rk rv : Nat)
    (hav : s.available = [])
    (hC : s.capacity ≠ 0)
    (hslot : s.data.get? r = some (some (rk, rv)))
    (hrkmem : (s.used.lookup rk).isSome = true)
    (hk : s.used.lookup k = none) :
    s.put k v r =
      (⟨s.capacity, (s.data.set r none).set r (some (k, v)), [],
        dictSet k r (dictDel rk s.used), s.counter + 1⟩, none) := by
  obtain ⟨cap, data, avail, used, cnt⟩ := s
  simp only at hav hslot hrkmem hk hC ⊢
  subst hav
  rw [OptimizedCache3.put, show pyRecursionLimit = 998 + 2 from rfl]
  exact OptimizedCache3.putF_evict_full 998 cap data used cnt k v r rk rv hC hslot hrkmem hk

/-- C8: on a full, consistent `OptimizedCache3`, the eviction victim is the
key occupying the slot drawn by `randint(0, capacity - 1)`: enumerating the
draws `0..capacity-1` enumerates exactly the occupied slots' keys in slot
order (so a uniform draw is a uniform choice over the occupied slots, with
no bias), and for every draw `r` the key occupying slot `r` — and only it —
becomes unfound while the new key becomes live with its value. -/
theorem c8_uniform_random_victim (s : OptimizedCache3) (k v : Nat)
    (hav : s.available = [])
    (hlen : s.data.length = s.capacity)
    (hocc : ∀ slot ∈ s.data, slot.isSome = true)
    (hcons : ∀ i, i < s.data.length → OptimizedCache3.slotConsistentB s i = true)
    (hndu : (dictKeys s.used).Nodup)
    (hk : s.used.lookup k = none) :
    ((List.range s.capacity).map s.victim
        = s.data.map (fun slot => slot.map Prod.fst)) ∧
    (∀ r, r < s.capacity → ∃ rk rv,
      s.data.get? r = some (some (rk, rv)) ∧
      s.victim r = some rk ∧
      (s.put k v r).2 = none ∧
      (s.put k v r).1.get rk = Except.error PyErr.keyError ∧
      (s.put k v r).1.get k = Except.ok (some v)) := by
  constructor
  · apply List.ext_get?
    intro n
    rw [List.get?_map, List.get?_map]
    by_cases hn : n < s.capacity
    · rw [List.get?_range hn]
      have hn' : n < s.data.length := by rw [hlen]; exact hn
      cases hslot : s.data.get? n with
      | none =>
        rw [List.get?_eq_none] at hslot
        omega
      | some slot =>
        have hv : s.victim n = Option.map Prod.fst slot := by
          unfold OptimizedCache3.victim
          rw [hslot]
        show some (s.victim n) = some (Option.map Prod.fst slot)
        rw [hv]
    · have h1 : (List.range s.capacity).get? n = none := by
        rw [List.get?_eq_none, List.length_range]
        omega
      have h2 : s.data.get? n = none := by
        rw [List.get?_eq_none]
        omega
      rw [h1, h2]
      rfl
  · intro r hr
    have hr' : r < s.data.length := by rw [hlen]; exact hr
    cases hslot : s.data.get? r with
    | none =>
      rw [List.get?_eq_none] at hslot
      omega
    | some slot =>
      have hsome : slot.isSome = true := hocc slot (List.get?_mem hslot)
      obtain ⟨⟨rk, rv⟩, rfl⟩ := Option.isSome_iff_exists.mp hsome
      have hc := hcons r hr'
      unfold OptimizedCache3.slotConsistentB at hc
      rw [hslot] at hc
      have hlook : s.used.lookup rk = some r := beq_iff_eq.mp hc
      have hrkmem : (s.used.lookup rk).isSome = true := by rw [hlook]; rfl
      have hC : s.capacity ≠ 0 := by omega
      have hput := OptimizedCache3.put_evict s k v r rk rv hav hC hslot hrkmem hk
      have hrkne : rk ≠ k := by
        intro he
        rw [he, hk] at hlook
        exact Option.noConfusion hlook
      refine ⟨rk, rv, rfl, ?_, ?_, ?_, ?_⟩
      · unfold OptimizedCache3.victim
        rw [hslot]
        rfl
      · rw [hput]
      · rw [hput]
        simp only [OptimizedCache3.get, lookup_dictSet_ne _ k r rk hrkne,
          lookup_dictDel_self _ _ hndu]
      · have hgetr : ((s.data.set r none).set r (some (k, v))).get? r
            = some (some (k, v)) := by
          rw [List.set_set, List.get?_set, if_pos rfl, hslot]
          rfl
        rw [hput]
        simp only [OptimizedCache3.get, lookup_dictSet_self, hgetr]
        rfl

/-- Witness for C8 on a full, consistent cache of capacity 2 holding keys 5
and 6. -/
theorem c8_uniform_random_victim_witness :
    ((List.range oc3Full2.capacity).map oc3Full2.victim
        = oc3Full2.data.map (fun slot => slot.map Prod.fst)) ∧
    (∀ r, r < oc3Full2.capacity → ∃ rk rv,
      oc3Full2.data.get? r = some (some (rk, rv)) ∧
      oc3Full2.victim r = some rk ∧
      (oc3Full2.put 7 70 r).2 = none ∧
      (oc3Full2.put 7 70 r).1.get rk = Except.error PyErr.keyError ∧
      (oc3Full2.put 7 70 r).1.get 7 = Except.ok (some 70)) :=
  c8_uniform_random_victim oc3Full2 7 70
    (by decide) (by decide) (by decide) (by decide) (by decide) (by decide)
